import Mathlib

/-!
Verification development for the accessibility-assessment service
(`src/app/api/analyze/route.ts`).

The embedding below translates the route module's pure core into Lean:

* the fingerprint engine (`computeFingerprint`, route.ts:30-51),
* URL scoring and crawl admission (`scoreUrl` route.ts:137-183,
  `shouldCrawlUrl` route.ts:208-238),
* the crawl orchestration loop (`crawlSite`, route.ts:240-360),
* the per-page heuristics (image alt counting route.ts:667-679,
  `estimateUnlabeledControls` route.ts:376-424),
* the aggregation pass and worst-page rankings of the `POST` handler
  (route.ts:602-760), and
* input normalization/validation (`normalizeUrl` route.ts:53-65 and the
  `POST` prologue route.ts:556-567).

Modelling conventions:

* JavaScript numbers that flow through the 32-bit coercions of the hash are
  modelled as `Nat` with explicit `% 2^32`, with the final `ToInt32`/
  `Math.abs` step made explicit.
* A parsed WHATWG `URL` object is modelled by the record `JSURL` holding the
  components the route reads (`protocol`, `hostname`, `pathname`, `search`,
  `hash`); `urlToString` is its serialization.  Ports, credentials and
  percent-encoding are not read by the route and are omitted.
* The crawl loop is asynchronous in the source with at most five in-flight
  fetches; the embedding is the determinization in which every fetch batch
  completes before the orchestrator's next scheduling pass.  Wall-clock time
  never advances in the model, so the 12 s total budget and the 80 % soft
  cutoff never fire; this is the schedule in which the loop runs to its
  logical completion.  Fetch results are supplied by a `world` function
  mapping a page URL to the (already resolved) link URLs found on it.
-/

/-! ## Generic string helpers (JavaScript semantics) -/

/-- Test whether the first list is an initial segment of the second. -/
def leadMatch : List Char → List Char → Bool
  | [], _ => true
  | _ :: _, [] => false
  | a :: as, b :: bs => a = b && leadMatch as bs

/-- Test whether the first list occurs as a contiguous run inside the second. -/
def hasRun : List Char → List Char → Bool
  | n, [] => n.isEmpty
  | n, c :: cs => leadMatch n (c :: cs) || hasRun n cs

/-- JavaScript `hay.includes(needle)`. -/
def strIncludes (hay needle : String) : Bool :=
  hasRun needle.toList hay.toList

/-- JavaScript `s.endsWith(suffix)`. -/
def strEndsWith (s tail : String) : Bool :=
  leadMatch tail.toList.reverse s.toList.reverse

/-- ASCII lowercasing of one character, as `toLowerCase()` acts on the ASCII
strings (tag names, attribute values, URL components) this module feeds it. -/
def lowerChar (c : Char) : Char :=
  if 65 ≤ c.toNat ∧ c.toNat ≤ 90 then Char.ofNat (c.toNat + 32) else c

/-- JavaScript `s.toLowerCase()` on ASCII strings. -/
def strLower (s : String) : String :=
  String.mk (s.toList.map lowerChar)

/-- Splitting a character list at every occurrence of a separator character,
accumulating the current piece reversed. -/
def splitChGo (sep : Char) : List Char → List Char → List String
  | cur, [] => [String.mk cur.reverse]
  | cur, c :: cs =>
    if c = sep then String.mk cur.reverse :: splitChGo sep [] cs
    else splitChGo sep (c :: cur) cs

/-! ## Fingerprint engine (`computeFingerprint`, route.ts:30-51) -/

/-- The five tracked counters of a scan (route.ts:30-36). -/
structure Metrics where
  totalImages : Nat
  missingAlt : Nat
  totalControls : Nat
  unlabeledControls : Nat
  totalLinks : Nat
  deriving DecidableEq, Repr

/-- The concatenated metric string of route.ts:38. -/
def metricString (m : Metrics) : String :=
  Nat.repr m.totalImages ++ ":" ++ Nat.repr m.missingAlt ++ ":" ++
    Nat.repr m.totalControls ++ ":" ++ Nat.repr m.unlabeledControls ++ ":" ++
    Nat.repr m.totalLinks

/-- One step of the rolling checksum of route.ts:40-44.  In JavaScript
`hash = (hash << 5) - hash + char` followed by `hash = hash & hash` is
`31 * hash + char` in two's-complement 32-bit arithmetic, so modulo `2^32`
on the unsigned representative. -/
def hashStep (h : Nat) (c : Char) : Nat :=
  (31 * h + c.toNat) % 4294967296

/-- The rolling checksum over the whole string (route.ts:39-44). -/
def jsHash (s : String) : Nat :=
  s.toList.foldl hashStep 0

/-- JavaScript `Math.abs` applied to the signed 32-bit reading of the
unsigned representative (route.ts:47). -/
def absInt32 (n : Nat) : Nat :=
  if n ≥ 2147483648 then 4294967296 - n else n

/-- Digits used by JavaScript `Number.prototype.toString(36)`. -/
def base36Digit (n : Nat) : Char :=
  "0123456789abcdefghijklmnopqrstuvwxyz".toList.getD n '0'

/-- Fuelled base-36 digit expansion, most significant digit first. -/
def base36Go : Nat → Nat → List Char
  | 0, _ => []
  | fuel + 1, n => if n = 0 then [] else base36Go fuel (n / 36) ++ [base36Digit (n % 36)]

/-- JavaScript `n.toString(36)` for a non-negative integer.  64 digits of
fuel cover every natural below `36^64`, far beyond the 32-bit range. -/
def toBase36 (n : Nat) : String :=
  if n = 0 then "0" else String.mk (base36Go 64 n)

/-- The `hash` field produced by `computeFingerprint` (route.ts:46-50).  The
`timestamp` field of the returned record is ambient wall-clock time and the
`metrics` field is the argument itself; the hash string is the only computed
content. -/
def computeFingerprint (m : Metrics) : String :=
  toBase36 (absInt32 (jsHash (metricString m)))

/-! ## URL model and frontier scoring (route.ts:137-238) -/

/-- The components of a parsed WHATWG `URL` that the route reads.  `protocol`
includes the trailing colon and `search`/`hash` include their leading
delimiter, as in JavaScript (`"https:"`, `"?x=1"`, `"#frag"`). -/
structure JSURL where
  protocol : String
  hostname : String
  pathname : String
  search : String
  hash : String
  deriving DecidableEq, Repr

/-- Serialization of a `JSURL`, as produced by `URL.prototype.toString` for
URLs without port or credentials. -/
def urlToString (u : JSURL) : String :=
  u.protocol ++ "//" ++ u.hostname ++ u.pathname ++ u.search ++ u.hash

/-- Slash-delimited non-empty path segments:
`pathname.split("/").filter((s) => s)` (route.ts:164). -/
def pathSegments (pathname : String) : List String :=
  (splitChGo '/' [] pathname.toList).filter (fun s => s ≠ "")

/-- The file-extension test `/\.(pdf|doc|docx|xls|xlsx|jpg|jpeg|png|gif|zip|exe)$/i`
applied to an already lowercased pathname (route.ts:147, route.ts:232). -/
def hasFileExt (pathname : String) : Bool :=
  [".pdf", ".doc", ".docx", ".xls", ".xlsx", ".jpg", ".jpeg", ".png", ".gif",
    ".zip", ".exe"].any (fun e => strEndsWith pathname e)

/-- The high-value keyword list of route.ts:158. -/
def highValueKeywords : List String :=
  ["contact", "help", "apply", "login", "search", "pay", "form", "register"]

/-- The frontier scorer `scoreUrl(url, baseUrl)` (route.ts:137-183).  The
argument is the parsed URL; parse failure (the `catch` branch returning -10)
cannot occur for a URL that is already represented as a `JSURL`. -/
def scoreUrl (u : JSURL) : Int :=
  let pathname := strLower u.pathname
  let search := strLower u.search
  if hasFileExt pathname then -5
  else if pathname = "/" ∧ search = "" then 0
  else if strEndsWith pathname "#" ∨ strIncludes (urlToString u) "mailto:" then -3
  else
    (if highValueKeywords.any (fun kw => strIncludes pathname kw) then 3 else 0) +
    (if 2 ≤ (pathSegments pathname).length ∧ (pathSegments pathname).length ≤ 4 then 2 else 0) -
    (if (pathSegments pathname).length > 6 then 1 else 0) -
    (if search ≠ "" then 1 else 0)

/-- The path substrings that veto crawling (route.ts:224). -/
def skipPaths : List String :=
  ["/logout", "/admin", "/wp-admin", "/login", "/signin", "/user/logout"]

/-- The crawl admission guard `shouldCrawlUrl(url, baseUrl)`
(route.ts:208-238): same hostname, no query string, no `#` in the serialized
URL, no session/admin path, at most three path segments, no binary file
extension. -/
def shouldCrawlUrl (u base : JSURL) : Bool :=
  if u.hostname ≠ base.hostname then false
  else if u.search ≠ "" then false
  else if strIncludes (urlToString u) "#" then false
  else if skipPaths.any (fun p => strIncludes (strLower u.pathname) p) then false
  else if (pathSegments (strLower u.pathname)).length > 3 then false
  else if hasFileExt (strLower u.pathname) then false
  else true

/-! ## Crawl orchestrator (`crawlSite`, route.ts:240-360)

The orchestrator state: the score-ordered frontier `toVisit`, the visited
set (kept as a list in insertion order; the JavaScript `Set` preserves it),
and `scanned`, the list of attempted page URLs. -/

structure CrawlState where
  toVisit : List (JSURL × Int)
  visited : List JSURL
  scanned : List JSURL
  deriving DecidableEq, Repr

/-- Stable insertion of a frontier entry into a list already sorted by score
descending: the entry goes before the first strictly lower score, after all
equal scores that were inserted later in the fold.  Combined with `foldr`
this reproduces the stable `toVisit.sort((a, b) => b.score - a.score)` of
route.ts:272 (ECMAScript `Array.prototype.sort` is stable). -/
def insertByScore (e : JSURL × Int) : List (JSURL × Int) → List (JSURL × Int)
  | [] => [e]
  | f :: rest => if f.2 ≤ e.2 then e :: f :: rest else f :: insertByScore e rest

/-- Stable sort of the frontier by score descending (route.ts:272). -/
def sortByScore (l : List (JSURL × Int)) : List (JSURL × Int) :=
  l.foldr insertByScore []

/-- Admission of the links discovered on one fetched page
(route.ts:290-314): each link must pass `shouldCrawlUrl`, must not already
be visited, the visited count must still be under the page cap, and the
score must reach the `-3` cutoff (route.ts:307); admitted links are pushed
onto the frontier with their score. -/
def admitLinks (base : JSURL) (maxPages : Nat) (st : CrawlState)
    (links : List JSURL) : CrawlState :=
  links.foldl
    (fun s link =>
      if shouldCrawlUrl link base ∧ link ∉ s.visited ∧
          s.visited.length < maxPages ∧ -3 ≤ scoreUrl link then
        { s with toVisit := s.toVisit ++ [(link, scoreUrl link)] }
      else s)
    st

/-- The inner queueing loop of route.ts:262-325: while the frontier is
non-empty and fewer than five fetches are in flight, sort the frontier, pop
the top entry, skip it if already visited, otherwise mark it visited, record
it as attempted and submit its fetch (collect it into `batch`).  The page
cap is NOT re-checked inside this loop.  The fuel is the frontier length:
every iteration consumes exactly one frontier entry. -/
def queueGo : Nat → CrawlState → List JSURL → CrawlState × List JSURL
  | 0, st, batch => (st, batch)
  | fuel + 1, st, batch =>
    if batch.length ≥ 5 then (st, batch)
    else
      match sortByScore st.toVisit with
      | [] => (st, batch)
      | (u, _) :: rest =>
        if u ∈ st.visited then
          queueGo fuel { st with toVisit := rest } batch
        else
          queueGo fuel
            { st with
              toVisit := rest
              visited := st.visited ++ [u]
              scanned := st.scanned ++ [u] }
            (batch ++ [u])

/-- Completion of one batch of in-flight fetches: each fetched page's links
are extracted and admitted (route.ts:286-314).  `world` supplies the
resolved link URLs of a page. -/
def completeBatch (world : JSURL → List JSURL) (base : JSURL) (maxPages : Nat)
    (st : CrawlState) (batch : List JSURL) : CrawlState :=
  batch.foldl (fun s u => admitLinks base maxPages s (world u)) st

/-- The outer crawl loop (route.ts:260-347) under the instant-completion
schedule: while the frontier is non-empty and the visited count is below the
page cap, run one queueing pass and then complete its batch. -/
def crawlGo (world : JSURL → List JSURL) (base : JSURL) (maxPages : Nat) :
    Nat → CrawlState → CrawlState
  | 0, st => st
  | fuel + 1, st =>
    if st.toVisit ≠ [] ∧ st.visited.length < maxPages then
      let p := queueGo st.toVisit.length st []
      crawlGo world base maxPages fuel (completeBatch world base maxPages p.1 p.2)
    else st

/-- `crawlSite(baseUrl, maxPages)` (route.ts:240-360): the frontier starts
as the root at score 0 (route.ts:245). -/
def crawlSite (world : JSURL → List JSURL) (base : JSURL) (maxPages : Nat)
    (fuel : Nat) : CrawlState :=
  crawlGo world base maxPages fuel { toVisit := [(base, 0)], visited := [], scanned := [] }

/-! ## Page heuristics: images (route.ts:667-679) -/

/-- The image-counting step of the aggregation loop (route.ts:670-679): an
image's `alt` attribute is `none` when absent and `some ""` when explicitly
empty (`cheerio` `attr` returns `undefined` resp. `""`); only `alt ===
undefined` increments the missing count: one step of the loop. -/
def altStep (n : Nat) (a : Option String) : Nat :=
  match a with | none => n + 1 | some _ => n

/-- The fold of the per-page image loop. -/
def countMissingAlt (alts : List (Option String)) : Nat :=
  alts.foldl altStep 0

/-! ## Page heuristics: form controls (`estimateUnlabeledControls`,
route.ts:376-424) -/

/-- One form control as the analyzer sees it.  Attribute fields are `none`
when the attribute is absent and `some v` when present with value `v`.
`wrappedInLabel` records `$el.parents("label").length > 0`; `placeholder` is
carried to show it plays no role in the labeling decision. -/
structure Control where
  tag : String
  typeAttr : Option String
  ariaLabel : Option String
  ariaLabelledby : Option String
  title : Option String
  id : Option String
  wrappedInLabel : Bool
  placeholder : Option String
  deriving DecidableEq, Repr

/-- The document context the analyzer queries: ids of existing elements
(for `aria-labelledby` resolution, route.ts:406) and the `for=` values of
`<label>` elements (route.ts:412). -/
structure DocCtx where
  docIds : List String
  labelFors : List String
  deriving DecidableEq, Repr

/-- JavaScript truthiness of an optional attribute string: absent and empty
both read as false (`if (ariaLabel || title)`, route.ts:401). -/
def truthy : Option String → Bool
  | none => false
  | some s => if s = "" then false else true

/-- A whitespace character as matched by the `\s` class (the four common
ones suffice for the ids at hand). -/
def wsChar (c : Char) : Bool :=
  c = ' ' ∨ c = '\t' ∨ c = '\n' ∨ c = '\r'

/-- Character-level whitespace splitting, accumulating the current token
reversed. -/
def splitWsGo : List Char → List Char → List String
  | cur, [] => [String.mk cur.reverse]
  | cur, c :: cs =>
    if wsChar c then String.mk cur.reverse :: splitWsGo [] cs
    else splitWsGo (c :: cur) cs

/-- The `aria-labelledby` id list: `split(/\s+/).filter(id => id)`
(route.ts:405).  Splitting at every whitespace character and then dropping
empty tokens yields the same token list as splitting at whitespace runs. -/
def splitIds (s : String) : List String :=
  (splitWsGo [] s.toList).filter (fun i => i ≠ "")

/-- The skip test of route.ts:389-392: hidden/submit/button/reset inputs are
not considered controls (a missing `type` defaults to `"text"`). -/
def skippedInput (c : Control) : Bool :=
  strLower c.tag = "input" ∧
    (match c.typeAttr with
      | none => "text"
      | some t => if t = "" then "text" else strLower t)
      ∈ ["hidden", "submit", "button", "reset"]

/-- The labeling decision chain of route.ts:396-418 for one considered
control: truthy `aria-label` or `title`; truthy `aria-labelledby` one of
whose ids names an existing element; truthy `id` with a matching
`<label for=id>`; or nesting inside a `<label>`. -/
def labeledByCode (ctx : DocCtx) (c : Control) : Bool :=
  truthy c.ariaLabel || truthy c.title ||
    (truthy c.ariaLabelledby &&
      (match c.ariaLabelledby with
        | none => false
        | some s => (splitIds s).any (fun i => i ∈ ctx.docIds))) ||
    (truthy c.id &&
      (match c.id with
        | none => false
        | some i => i ∈ ctx.labelFors)) ||
    c.wrappedInLabel

/-- `estimateUnlabeledControls($)` (route.ts:376-424), returning
`(total, unlabeled)`: one step of the loop over the considered controls. -/
def ctrlStep (ctx : DocCtx) (acc : Nat × Nat) (c : Control) : Nat × Nat :=
  if skippedInput c then acc
  else if labeledByCode ctx c then (acc.1 + 1, acc.2)
  else (acc.1 + 1, acc.2 + 1)

/-- The whole fold of `estimateUnlabeledControls`. -/
def estimateUnlabeledControls (ctx : DocCtx) (controls : List Control) : Nat × Nat :=
  controls.foldl (ctrlStep ctx) (0, 0)

/-! ## Site aggregation (`POST`, route.ts:602-760) -/

/-- The per-page facts consumed by the aggregation loop: the page's URL key
(`scannedPages[i]`), its resolved link URLs, its images' `alt` attributes,
its form controls with their document context, and its `<form>` count. -/
structure PageFacts where
  url : String
  links : List JSURL
  imgAlts : List (Option String)
  ctx : DocCtx
  controls : List Control
  formsCount : Nat
  deriving DecidableEq, Repr

/-- An entry of the worst-page rankings (`PageMetrics` in the response
type). -/
structure PageMetric where
  url : String
  missingAltCount : Nat
  unlabeledControlsCount : Nat
  deriving DecidableEq, Repr

/-- The running aggregation state of route.ts:602-615: the insertion-ordered
set of unique link URLs, the five counters, the `<form>` count, and the
per-page metrics map in insertion order.  The first-five sample lists and
the first page's title/description are order-sensitive display extras not
modelled here. -/
structure AggState where
  seen : List JSURL
  totalImages : Nat
  missingAlt : Nat
  controlsTotal : Nat
  unlabeled : Nat
  forms : Nat
  pageMetrics : List (String × Nat × Nat)
  deriving DecidableEq, Repr

/-- Insertion of one link into the unique-link set (route.ts:638-646). -/
def insertLink (s : List JSURL) (l : JSURL) : List JSURL :=
  if l ∈ s then s else s ++ [l]

/-- Processing of one fetched page by the aggregation loop
(route.ts:617-685): union its links into the set, add its form/control/image
counts, and record its per-page missing-alt and unlabeled-control counts in
the metrics map (an existing entry for the same URL key is overwritten). -/
def processPage (st : AggState) (p : PageFacts) : AggState :=
  let seen := p.links.foldl insertLink st.seen
  let est := estimateUnlabeledControls p.ctx p.controls
  let miss := countMissingAlt p.imgAlts
  let pm0 := if st.pageMetrics.any (fun e => e.1 = p.url) then st.pageMetrics
    else st.pageMetrics ++ [(p.url, 0, 0)]
  { seen := seen
    totalImages := st.totalImages + p.imgAlts.length
    missingAlt := st.missingAlt + miss
    controlsTotal := st.controlsTotal + est.1
    unlabeled := st.unlabeled + est.2
    forms := st.forms + p.formsCount
    pageMetrics := pm0.map (fun e => if e.1 = p.url then (p.url, miss, est.2) else e) }

/-- The empty aggregation state (route.ts:602-615). -/
def initAgg : AggState :=
  { seen := [], totalImages := 0, missingAlt := 0, controlsTotal := 0,
    unlabeled := 0, forms := 0, pageMetrics := [] }

/-- The whole aggregation pass over the fetched pages (route.ts:617-685). -/
def aggregate (pages : List PageFacts) : AggState :=
  pages.foldl processPage initAgg

/-- The internal-link count of route.ts:687-698: links in the unique set
whose hostname equals the site root's. -/
def internalCount (base : JSURL) (st : AggState) : Nat :=
  st.seen.countP (fun l => l.hostname = base.hostname)

/-- The external-link count of route.ts:687-698. -/
def externalCount (base : JSURL) (st : AggState) : Nat :=
  st.seen.countP (fun l => ¬(l.hostname = base.hostname))

/-- Stable insertion for the descending sort of `worstByAlt`
(route.ts:759); ECMAScript sort is stable, so ties keep map order. -/
def insertByAlt (e : PageMetric) : List PageMetric → List PageMetric
  | [] => [e]
  | f :: rest =>
    if f.missingAltCount ≤ e.missingAltCount then e :: f :: rest
    else f :: insertByAlt e rest

/-- Stable descending sort by `missingAltCount` (route.ts:759). -/
def sortByAlt (l : List PageMetric) : List PageMetric :=
  l.foldr insertByAlt []

/-- Stable insertion for the descending sort of `worstByControls`
(route.ts:760). -/
def insertByControls (e : PageMetric) : List PageMetric → List PageMetric
  | [] => [e]
  | f :: rest =>
    if f.unlabeledControlsCount ≤ e.unlabeledControlsCount then e :: f :: rest
    else f :: insertByControls e rest

/-- Stable descending sort by `unlabeledControlsCount` (route.ts:760). -/
def sortByControls (l : List PageMetric) : List PageMetric :=
  l.foldr insertByControls []

/-- The unsorted `worstByAlt` accumulation of route.ts:747-757: pages with a
positive missing-alt count, with the unlabeled field pinned to 0. -/
def worstByAltPool (st : AggState) : List PageMetric :=
  st.pageMetrics.filterMap
    (fun e => if 0 < e.2.1 then some ⟨e.1, e.2.1, 0⟩ else none)

/-- The unsorted `worstByControls` accumulation of route.ts:747-757. -/
def worstByControlsPool (st : AggState) : List PageMetric :=
  st.pageMetrics.filterMap
    (fun e => if 0 < e.2.2 then some ⟨e.1, 0, e.2.2⟩ else none)

/-- The full sorted `worstByAlt` ranking (route.ts:759). -/
def worstByAltRanking (st : AggState) : List PageMetric :=
  sortByAlt (worstByAltPool st)

/-- The full sorted `worstByControls` ranking (route.ts:760). -/
def worstByControlsRanking (st : AggState) : List PageMetric :=
  sortByControls (worstByControlsPool st)

/-- The `worstPages.byMissingAlt` list of the response: the ranking
truncated to five entries (`slice(0, 5)`, route.ts:1266). -/
def worstByAltTop5 (st : AggState) : List PageMetric :=
  (worstByAltRanking st).take 5

/-- The `worstPages.byUnlabeledControls` list of the response
(route.ts:1267). -/
def worstByControlsTop5 (st : AggState) : List PageMetric :=
  (worstByControlsRanking st).take 5

/-! ## Input normalization and the POST prologue (route.ts:53-65,
route.ts:556-598) -/

/-- The outcome of `new URL(withProto)` as far as `normalizeUrl` reads it:
the `protocol` component and the serialized form returned by
`u.toString()`. -/
structure ParsedTarget where
  protocol : String
  serialized : String
  deriving DecidableEq, Repr

/-- The scheme-prefixing step of route.ts:54-57: trim, then prefix
`https://` unless the string already starts with `http://` or
`https://`. -/
def withProto (input : String) : String :=
  let trimmed := input.trim
  if trimmed.startsWith "http://" || trimmed.startsWith "https://" then trimmed
  else "https://" ++ trimmed

/-- `normalizeUrl(input)` (route.ts:53-65), parameterized by the WHATWG URL
parser (a platform primitive): `none` is a parse throw; a parsed URL whose
protocol is neither `http:` nor `https:` is rejected. -/
def normalizeUrl (parse : String → Option ParsedTarget) (input : String) :
    Except String String :=
  match parse (withProto input) with
  | none => .error "Invalid URL"
  | some u =>
    if u.protocol ≠ "http:" ∧ u.protocol ≠ "https:" then
      .error "Only http/https URLs are supported."
    else .ok u.serialized

/-- The observable outcome of one `POST` call: the HTTP status and the list
of page URLs for which a fetch was attempted (crawl attempts plus the
single-page fallback of route.ts:581-598). -/
structure PostOutcome where
  status : Nat
  fetched : List String
  deriving DecidableEq, Repr

/-- The `POST` handler prologue and crawl dispatch (route.ts:556-598),
parameterized by the URL parser, a crawl oracle returning the fetched html
pages and the attempted URLs for a normalized root, and a fallback oracle
telling whether the single-page retry of route.ts:581-598 succeeds.  A missing `url`
field or a `normalizeUrl` failure yields status 400 before any fetch; the
response cache (route.ts:570-573) sits after validation and is bypassed
here (an empty cache). -/
def postModel (parse : String → Option ParsedTarget)
    (crawl : String → List String × List String) (fallbackOk : String → Bool)
    (body : Option String) : PostOutcome :=
  match body with
  | none => { status := 400, fetched := [] }
  | some rawUrl =>
    match normalizeUrl parse rawUrl with
    | .error _ => { status := 400, fetched := [] }
    | .ok normalized =>
      let r := crawl normalized
      if r.1 = [] then
        if fallbackOk normalized then { status := 200, fetched := r.2 ++ [normalized] }
        else { status := 500, fetched := r.2 ++ [normalized] }
      else { status := 200, fetched := r.2 }


/-! ## Specification-side predicates and concrete scenario inputs -/

/-- The labeling criterion in the spec's words, amended with the
non-emptiness the code's truthiness tests impose: a non-empty `aria-label`
or `title`, an `aria-labelledby` naming an existing element id, a non-empty
`id` with an associated `label[for=id]`, or nesting inside a `<label>`. -/
def labeledSpecAmended (ctx : DocCtx) (c : Control) : Prop :=
  (∃ s, c.ariaLabel = some s ∧ s ≠ "") ∨
  (∃ s, c.title = some s ∧ s ≠ "") ∨
  (∃ s, c.ariaLabelledby = some s ∧ ∃ i ∈ splitIds s, i ∈ ctx.docIds) ∨
  (∃ i, c.id = some i ∧ i ≠ "" ∧ i ∈ ctx.labelFors) ∨
  c.wrappedInLabel = true

/-- A document with no ids and no `<label for>` elements. -/
def emptyCtx : DocCtx := ⟨[], []⟩

/-- A text input whose only labeling-relevant attribute is an explicitly
empty `aria-label`. -/
def emptyAriaControl : Control :=
  ⟨"input", none, some "", none, none, none, false, none⟩

/-- A text input nested inside a `<label>` with no other attributes. -/
def wrappedOnlyControl : Control :=
  ⟨"input", none, none, none, none, none, true, none⟩

/-- A text input carrying only a `placeholder` attribute. -/
def placeholderOnlyControl : Control :=
  ⟨"input", none, none, none, none, none, false, some "Enter name"⟩

/-- The site root `https://site` of the crawl scenarios. -/
def siteRoot : JSURL := ⟨"https:", "site", "/", "", ""⟩

/-- The page `https://site/pI` of the budget-exhaustion scenario. -/
def sitePage (i : Nat) : JSURL := ⟨"https:", "site", "/p" ++ Nat.repr i, "", ""⟩

/-- A world in which the root links to ten same-host pages (all admissible:
same hostname, one path segment, no query, score 0) and every other page has
no links. -/
def world1 : JSURL → List JSURL := fun u =>
  if u = siteRoot then (List.range 10).map (fun i => sitePage (i + 1)) else []

/-- The budget-exhaustion run: page cap 2 against the ten-link frontier. -/
def run1 : CrawlState := crawlSite world1 siteRoot 2 10

/-- A world with no links at all, for witness instantiations. -/
def world0 : JSURL → List JSURL := fun _ => []

/-- The discovered link `https://site/a/b/c/d/e?x=1` of the depth/query
pruning scenario: five path segments plus a query string. -/
def deepQueryUrl : JSURL := ⟨"https:", "site", "/a/b/c/d/e", "?x=1", ""⟩

/-- A fetched page with one undescribed image and nothing else, keyed
`https://site/a`. -/
def pageA : PageFacts := ⟨"https://site/a", [], [none], ⟨[], []⟩, [], 0⟩

/-- A fetched page with one undescribed image and nothing else, keyed
`https://site/b`. -/
def pageB : PageFacts := ⟨"https://site/b", [], [none], ⟨[], []⟩, [], 0⟩

/-- The per-page metrics entry a page contributes to the metrics map. -/
def aggEntry (p : PageFacts) : String × Nat × Nat :=
  (p.url, countMissingAlt p.imgAlts, (estimateUnlabeledControls p.ctx p.controls).2)

/-- A URL parser that rejects every string, for witness instantiations. -/
def parse0 : String → Option ParsedTarget := fun _ => none

/-- A crawl oracle fetching nothing, for witness instantiations. -/
def crawl0 : String → List String × List String := fun _ => ([], [])

/-- Every frontier entry and every attempted URL is either the site root or
passed the admission guard: the inductive invariant behind the
same-host/no-query/no-fragment property. -/
def StOK (base : JSURL) (st : CrawlState) : Prop :=
  (∀ e ∈ st.toVisit, e.1 = base ∨ shouldCrawlUrl e.1 base = true) ∧
  (∀ u ∈ st.scanned, u = base ∨ shouldCrawlUrl u base = true)

/-- The visited set and the attempted-page list coincide and are
duplicate-free: the inductive invariant behind visited uniqueness. -/
def VisOK (st : CrawlState) : Prop :=
  st.visited = st.scanned ∧ st.scanned.Nodup

/-! ## Theorems -/

/-- C2, counterexample: two metric vectors that differ in every counter but
receive the identical fingerprint hash `"5hliy2"`.  The rolling checksum is
folded into 32 bits (route.ts:42-43), so distinct metric vectors can and do
collide. -/
theorem fingerprint_collision :
    (⟨486456, 623840, 882030, 969721, 494035⟩ : Metrics) ≠
      (⟨768466, 622323, 698909, 454260, 322239⟩ : Metrics) ∧
    computeFingerprint ⟨486456, 623840, 882030, 969721, 494035⟩ =
      computeFingerprint ⟨768466, 622323, 698909, 454260, 322239⟩ := by
  constructor
  · decide
  · decide

/-- C2, amended: the fingerprint hash is a deterministic function of the
five tracked counters, so two runs whose counters all agree reproduce the
identical hash string (the sensitivity direction of the claim fails, see the
collision above). -/
theorem fingerprint_reproducible (m m' : Metrics)
    (h1 : m.totalImages = m'.totalImages) (h2 : m.missingAlt = m'.missingAlt)
    (h3 : m.totalControls = m'.totalControls)
    (h4 : m.unlabeledControls = m'.unlabeledControls)
    (h5 : m.totalLinks = m'.totalLinks) :
    computeFingerprint m = computeFingerprint m' := by
  cases m
  cases m'
  simp only at h1 h2 h3 h4 h5
  subst h1 h2 h3 h4 h5
  rfl

/-- Witness for `fingerprint_reproducible` at a concrete metric vector. -/
theorem fingerprint_reproducible_witness :
    computeFingerprint ⟨7, 2, 9, 4, 31⟩ = computeFingerprint ⟨7, 2, 9, 4, 31⟩ :=
  fingerprint_reproducible ⟨7, 2, 9, 4, 31⟩ ⟨7, 2, 9, 4, 31⟩ rfl rfl rfl rfl rfl

/-- Shifting the accumulator of the missing-alt fold. -/
theorem missingAltFold_shift (alts : List (Option String)) (n : Nat) :
    alts.foldl altStep n = n + alts.foldl altStep 0 := by
  induction alts generalizing n with
  | nil => simp
  | cons a rest ih =>
    cases a with
    | none =>
      simp only [List.foldl_cons, altStep]
      rw [ih, ih 1]
      omega
    | some s =>
      simp only [List.foldl_cons, altStep]
      exact ih n

/-- The missing-alt count of the empty image list. -/
theorem countMissingAlt_nil : countMissingAlt [] = 0 := rfl

/-- An image with an absent `alt` attribute adds one to the count. -/
theorem countMissingAlt_none (alts : List (Option String)) :
    countMissingAlt (none :: alts) = countMissingAlt alts + 1 := by
  show alts.foldl altStep 1 = countMissingAlt alts + 1
  rw [missingAltFold_shift alts 1]
  rw [Nat.add_comm]
  rfl

/-- An image with a present (possibly empty) `alt` attribute adds nothing. -/
theorem countMissingAlt_some (s : String) (alts : List (Option String)) :
    countMissingAlt (some s :: alts) = countMissingAlt alts := rfl

/-- C3: the missing-alt count of a page equals the number of its images whose
`alt` attribute is entirely absent; an absent attribute adds one to the
count, an explicitly empty (or any present) attribute adds nothing
(route.ts:670-679). -/
theorem missingAlt_counts_absent_only (alts : List (Option String)) :
    countMissingAlt alts = (alts.filter (fun a => a = none)).length ∧
    countMissingAlt (none :: alts) = countMissingAlt alts + 1 ∧
    (∀ s : String, countMissingAlt (some s :: alts) = countMissingAlt alts) := by
  refine ⟨?_, countMissingAlt_none alts, fun s => countMissingAlt_some s alts⟩
  induction alts with
  | nil => rfl
  | cons a rest ih =>
    cases a with
    | none =>
      rw [countMissingAlt_none, ih]
      simp [List.filter_cons]
    | some s =>
      rw [countMissingAlt_some, ih]
      simp [List.filter_cons]

/-- Truthiness of an absent attribute. -/
theorem truthy_none : truthy none = false := rfl

/-- An optional attribute is truthy exactly when it is present with a
non-empty value. -/
theorem truthy_iff (o : Option String) : truthy o = true ↔ ∃ s, o = some s ∧ s ≠ "" := by
  cases o with
  | none => simp [truthy]
  | some s =>
    by_cases h : s = "" <;> simp [truthy, h]

/-- The id list of an empty `aria-labelledby` value is empty. -/
theorem splitIds_nil : splitIds "" = [] := rfl

/-- A string with at least one id token is non-empty. -/
theorem mem_splitIds_source_ne (i s : String) (h : i ∈ splitIds s) : s ≠ "" := by
  intro hs
  rw [hs, splitIds_nil] at h
  exact absurd h (List.not_mem_nil i)

/-- The `aria-labelledby` leg of the decision chain holds exactly when the
attribute names an existing element id. -/
theorem labelledbyCode_iff (ctx : DocCtx) (o : Option String) :
    (truthy o &&
      (match o with
        | none => false
        | some s => (splitIds s).any (fun i => i ∈ ctx.docIds))) = true ↔
      ∃ s, o = some s ∧ ∃ i ∈ splitIds s, i ∈ ctx.docIds := by
  cases o with
  | none => simp [truthy_none]
  | some s =>
    simp only [Bool.and_eq_true, truthy_iff, List.any_eq_true, decide_eq_true_eq,
      Option.some.injEq]
    constructor
    · rintro ⟨-, i, hi, hd⟩
      exact ⟨s, rfl, i, hi, hd⟩
    · rintro ⟨s', hs', i, hi, hd⟩
      subst hs'
      exact ⟨⟨s, rfl, mem_splitIds_source_ne i s hi⟩, i, hi, hd⟩

/-- The `label[for=id]` leg of the decision chain holds exactly when the
control has a non-empty id matched by some label's `for`. -/
theorem idCode_iff (ctx : DocCtx) (o : Option String) :
    (truthy o &&
      (match o with
        | none => false
        | some i => i ∈ ctx.labelFors)) = true ↔
      ∃ i, o = some i ∧ i ≠ "" ∧ i ∈ ctx.labelFors := by
  cases o with
  | none => simp [truthy_none]
  | some i =>
    simp only [Bool.and_eq_true, truthy_iff, decide_eq_true_eq, Option.some.injEq]
    constructor
    · rintro ⟨⟨i', hi', hne⟩, hmem⟩
      exact ⟨i, rfl, by rw [hi']; exact hne, hmem⟩
    · rintro ⟨i', hi', hne, hmem⟩
      cases hi'
      exact ⟨⟨i, rfl, hne⟩, hmem⟩

/-- The analyzer's labeling decision coincides with the amended
specification criterion. -/
theorem labeledByCode_iff (ctx : DocCtx) (c : Control) :
    labeledByCode ctx c = true ↔ labeledSpecAmended ctx c := by
  unfold labeledByCode labeledSpecAmended
  simp only [Bool.or_eq_true, truthy_iff, labelledbyCode_iff ctx, idCode_iff ctx, or_assoc]

/-- Shifting the accumulator of the control fold. -/
theorem ctrlFold_shift (ctx : DocCtx) (cs : List Control) (a b : Nat) :
    cs.foldl (ctrlStep ctx) (a, b) =
      (a + (cs.foldl (ctrlStep ctx) (0, 0)).1, b + (cs.foldl (ctrlStep ctx) (0, 0)).2) := by
  induction cs generalizing a b with
  | nil => simp
  | cons c rest ih =>
    cases hs : skippedInput c with
    | true => simpa [ctrlStep, hs] using ih a b
    | false =>
      cases hl : labeledByCode ctx c with
      | true =>
        simp only [List.foldl_cons, ctrlStep, hs, hl, Bool.false_eq_true, if_false, if_true]
        rw [ih (a + 1) b, ih 1 0]
        simp only [Prod.ext_iff]
        constructor
        · omega
        · omega
      | false =>
        simp only [List.foldl_cons, ctrlStep, hs, hl, Bool.false_eq_true, if_false, if_true]
        rw [ih (a + 1) (b + 1), ih 1 1]
        simp only [Prod.ext_iff]
        constructor
        · omega
        · omega

/-- The control totals are the counts of considered and of considered-but-
unlabeled controls. -/
theorem estimate_counts (ctx : DocCtx) (cs : List Control) :
    (estimateUnlabeledControls ctx cs).1 =
      (cs.filter (fun c => !skippedInput c)).length ∧
    (estimateUnlabeledControls ctx cs).2 =
      (cs.filter (fun c => !skippedInput c && !labeledByCode ctx c)).length := by
  induction cs with
  | nil => exact ⟨rfl, rfl⟩
  | cons c rest ih =>
    unfold estimateUnlabeledControls at ih ⊢
    obtain ⟨ih1, ih2⟩ := ih
    cases hs : skippedInput c with
    | true =>
      simp only [List.foldl_cons, ctrlStep, hs, if_true, List.filter_cons, Bool.not_true,
        Bool.false_and, Bool.false_eq_true, if_false]
      exact ⟨ih1, ih2⟩
    | false =>
      cases hl : labeledByCode ctx c with
      | true =>
        simp only [List.foldl_cons, ctrlStep, hs, hl, Bool.false_eq_true, if_false, if_true,
          List.filter_cons, Bool.not_true, Bool.not_false, Bool.true_and, Bool.and_false,
          List.length_cons]
        rw [ctrlFold_shift ctx rest 1 0]
        constructor
        · omega
        · omega
      | false =>
        simp only [List.foldl_cons, ctrlStep, hs, hl, Bool.false_eq_true, if_false, if_true,
          List.filter_cons, Bool.not_true, Bool.not_false, Bool.true_and, Bool.and_true,
          List.length_cons]
        rw [ctrlFold_shift ctx rest 1 1]
        constructor
        · omega
        · omega

/-- C4, counterexample: a considered text input whose `aria-label` attribute
is present but explicitly empty HAS the attribute, yet the analyzer counts
it as unlabeled — JavaScript truthiness (route.ts:401) ignores empty
attribute values, so "has an aria-label attribute" does not imply
labeled. -/
theorem ariaLabel_empty_counted_unlabeled :
    skippedInput emptyAriaControl = false ∧
    emptyAriaControl.ariaLabel ≠ none ∧
    labeledByCode emptyCtx emptyAriaControl = false ∧
    (estimateUnlabeledControls emptyCtx [emptyAriaControl]).2 = 1 := by
  refine ⟨by decide, ?_, by decide, by decide⟩
  intro h
  simp [emptyAriaControl] at h

/-- C4, amended: a considered control (hidden/submit/button/reset inputs
excluded) counts as labeled iff it has a NON-EMPTY `aria-label` or `title`,
an `aria-labelledby` naming an existing element id, a non-empty `id` with an
associated `label[for=id]`, or is nested inside a `<label>`; the totals are
the counts of considered and of considered-but-unlabeled controls; a control
wrapped in a `<label>` with no other attributes is labeled, and a control
with only a `placeholder` attribute is unlabeled. -/
theorem control_labeling_criterion (ctx : DocCtx) (c : Control) (cs : List Control)
    (h : skippedInput c = false) :
    (labeledByCode ctx c = true ↔ labeledSpecAmended ctx c) ∧
    (estimateUnlabeledControls ctx cs).1 =
      (cs.filter (fun x => !skippedInput x)).length ∧
    (estimateUnlabeledControls ctx cs).2 =
      (cs.filter (fun x => !skippedInput x && !labeledByCode ctx x)).length ∧
    skippedInput wrappedOnlyControl = false ∧
    labeledByCode ctx wrappedOnlyControl = true ∧
    skippedInput placeholderOnlyControl = false ∧
    labeledByCode ctx placeholderOnlyControl = false :=
  ⟨labeledByCode_iff ctx c, (estimate_counts ctx cs).1, (estimate_counts ctx cs).2,
    by decide, rfl, by decide, rfl⟩

/-- Witness for `control_labeling_criterion` at the wrapped-only control in
an id-free document. -/
theorem control_labeling_criterion_witness :
    (labeledByCode emptyCtx wrappedOnlyControl = true ↔
      labeledSpecAmended emptyCtx wrappedOnlyControl) ∧
    (estimateUnlabeledControls emptyCtx [wrappedOnlyControl]).1 =
      ([wrappedOnlyControl].filter (fun x => !skippedInput x)).length ∧
    (estimateUnlabeledControls emptyCtx [wrappedOnlyControl]).2 =
      ([wrappedOnlyControl].filter
        (fun x => !skippedInput x && !labeledByCode emptyCtx x)).length ∧
    skippedInput wrappedOnlyControl = false ∧
    labeledByCode emptyCtx wrappedOnlyControl = true ∧
    skippedInput placeholderOnlyControl = false ∧
    labeledByCode emptyCtx placeholderOnlyControl = false :=
  control_labeling_criterion emptyCtx wrappedOnlyControl [wrappedOnlyControl] (by decide)

/-- Link admission touches only the frontier, never the visited or attempted lists. -/
theorem admitLinks_visited_scanned (base : JSURL) (n : Nat) (ls : List JSURL)
    (st : CrawlState) :
    (admitLinks base n st ls).visited = st.visited ∧
      (admitLinks base n st ls).scanned = st.scanned := by
  induction ls generalizing st with
  | nil => exact ⟨rfl, rfl⟩
  | cons l rest ih =>
    unfold admitLinks
    simp only [List.foldl_cons]
    by_cases h : shouldCrawlUrl l base ∧ l ∉ st.visited ∧
        st.visited.length < n ∧ -3 ≤ scoreUrl l
    · rw [if_pos h]
      exact ih _
    · rw [if_neg h]
      exact ih _

/-- Completing a fetch batch touches only the frontier. -/
theorem completeBatch_visited_scanned (world : JSURL → List JSURL) (base : JSURL)
    (n : Nat) (batch : List JSURL) (st : CrawlState) :
    (completeBatch world base n st batch).visited = st.visited ∧
      (completeBatch world base n st batch).scanned = st.scanned := by
  induction batch generalizing st with
  | nil => exact ⟨rfl, rfl⟩
  | cons u rest ih =>
    unfold completeBatch
    simp only [List.foldl_cons]
    have h1 := admitLinks_visited_scanned base n (world u) st
    have h2 := ih (admitLinks base n st (world u))
    unfold completeBatch at h2
    exact ⟨h2.1.trans h1.1, h2.2.trans h1.2⟩

/-- The queueing loop preserves the visited-uniqueness invariant: a URL is pushed onto both lists only when it is not yet visited. -/
theorem queueGo_VisOK (fuel : Nat) (st : CrawlState) (batch : List JSURL)
    (h : VisOK st) : VisOK (queueGo fuel st batch).1 := by
  induction fuel generalizing st batch with
  | zero => exact h
  | succ f ih =>
    unfold queueGo
    by_cases hb : batch.length ≥ 5
    · rw [if_pos hb]
      exact h
    · rw [if_neg hb]
      cases hsort : sortByScore st.toVisit with
      | nil => exact h
      | cons e rest =>
        by_cases hv : e.1 ∈ st.visited
        · simp only [hv, if_true]
          exact ih _ _ ⟨h.1, h.2⟩
        · simp only [hv, if_false]
          refine ih _ _ ⟨?_, ?_⟩
          · simp only []
            rw [h.1]
          · simp only []
            have hns : e.1 ∉ st.scanned := by rw [← h.1]; exact hv
            simp [List.nodup_append, h.2, hns]

/-- The crawl loop preserves the visited-uniqueness invariant. -/
theorem crawlGo_VisOK (world : JSURL → List JSURL) (base : JSURL) (n fuel : Nat)
    (st : CrawlState) (h : VisOK st) : VisOK (crawlGo world base n fuel st) := by
  induction fuel generalizing st with
  | zero => exact h
  | succ f ih =>
    unfold crawlGo
    by_cases hc : st.toVisit ≠ [] ∧ st.visited.length < n
    · rw [if_pos hc]
      apply ih
      have hq := queueGo_VisOK st.toVisit.length st [] h
      have hp := completeBatch_visited_scanned world base n
        (queueGo st.toVisit.length st []).2 (queueGo st.toVisit.length st []).1
      exact ⟨hp.1.trans (hq.1.trans hp.2.symm), hp.2 ▸ hq.2⟩
    · rw [if_neg hc]
      exact h

/-- Stable insertion produces a permutation. -/
theorem insertByScore_perm (e : JSURL × Int) (l : List (JSURL × Int)) :
    List.Perm (insertByScore e l) (e :: l) := by
  induction l with
  | nil => exact List.Perm.refl _
  | cons f rest ih =>
    unfold insertByScore
    by_cases h : f.2 ≤ e.2
    · rw [if_pos h]
    · rw [if_neg h]
      exact (ih.cons f).trans (List.Perm.swap e f rest)

/-- The frontier sort is a permutation of the frontier. -/
theorem sortByScore_perm (l : List (JSURL × Int)) :
    List.Perm (sortByScore l) l := by
  induction l with
  | nil => exact List.Perm.refl _
  | cons e rest ih =>
    exact (insertByScore_perm e (sortByScore rest)).trans (ih.cons e)

/-- Every link pushed by the admission step passed the admission guard, so admission preserves the frontier invariant. -/
theorem admitLinks_StOK (base : JSURL) (n : Nat) (ls : List JSURL)
    (st : CrawlState) (h : StOK base st) : StOK base (admitLinks base n st ls) := by
  induction ls generalizing st with
  | nil => exact h
  | cons l rest ih =>
    unfold admitLinks
    simp only [List.foldl_cons]
    by_cases hc : shouldCrawlUrl l base ∧ l ∉ st.visited ∧
        st.visited.length < n ∧ -3 ≤ scoreUrl l
    · rw [if_pos hc]
      refine ih _ ⟨?_, h.2⟩
      intro e he
      simp only [List.mem_append, List.mem_singleton] at he
      cases he with
      | inl hin => exact h.1 e hin
      | inr heq =>
        subst heq
        exact Or.inr hc.1
    · rw [if_neg hc]
      exact ih _ h

/-- Batch completion preserves the frontier invariant. -/
theorem completeBatch_StOK (world : JSURL → List JSURL) (base : JSURL) (n : Nat)
    (batch : List JSURL) (st : CrawlState) (h : StOK base st) :
    StOK base (completeBatch world base n st batch) := by
  induction batch generalizing st with
  | nil => exact h
  | cons u rest ih =>
    unfold completeBatch
    simp only [List.foldl_cons]
    exact ih _ (admitLinks_StOK base n (world u) st h)

/-- The queueing loop moves frontier entries to the attempted list, preserving the invariant. -/
theorem queueGo_StOK (base : JSURL) (fuel : Nat) (st : CrawlState)
    (batch : List JSURL) (h : StOK base st) : StOK base (queueGo fuel st batch).1 := by
  induction fuel generalizing st batch with
  | zero => exact h
  | succ f ih =>
    unfold queueGo
    by_cases hb : batch.length ≥ 5
    · rw [if_pos hb]
      exact h
    · rw [if_neg hb]
      cases hsort : sortByScore st.toVisit with
      | nil => exact h
      | cons e rest =>
        have hmem : ∀ x ∈ e :: rest, x ∈ st.toVisit := by
          intro x hx
          rw [← hsort] at hx
          exact ((sortByScore_perm st.toVisit).mem_iff).mp hx
        have hrest : ∀ x ∈ rest, x.1 = base ∨ shouldCrawlUrl x.1 base = true :=
          fun x hx => h.1 x (hmem x (List.mem_cons_of_mem e hx))
        have hhead : e.1 = base ∨ shouldCrawlUrl e.1 base = true :=
          h.1 e (hmem e (List.mem_cons_self e rest))
        by_cases hv : e.1 ∈ st.visited
        · simp only [hv, if_true]
          exact ih _ _ ⟨hrest, h.2⟩
        · simp only [hv, if_false]
          refine ih _ _ ⟨hrest, ?_⟩
          intro u hu
          simp only [List.mem_append, List.mem_singleton] at hu
          cases hu with
          | inl hin => exact h.2 u hin
          | inr heq =>
            subst heq
            exact hhead

/-- The crawl loop preserves the frontier invariant. -/
theorem crawlGo_StOK (world : JSURL → List JSURL) (base : JSURL) (n fuel : Nat)
    (st : CrawlState) (h : StOK base st) : StOK base (crawlGo world base n fuel st) := by
  induction fuel generalizing st with
  | zero => exact h
  | succ f ih =>
    unfold crawlGo
    by_cases hc : st.toVisit ≠ [] ∧ st.visited.length < n
    · rw [if_pos hc]
      exact ih _ (completeBatch_StOK world base n _ _ (queueGo_StOK base _ st [] h))
    · rw [if_neg hc]
      exact h

/-- Every crawl run satisfies the frontier invariant: each frontier entry and attempted URL is the seed or passed the admission guard. -/
theorem crawlSite_StOK (world : JSURL → List JSURL) (base : JSURL) (n fuel : Nat) :
    StOK base (crawlSite world base n fuel) := by
  apply crawlGo_StOK
  constructor
  · intro e he
    simp only [List.mem_singleton] at he
    subst he
    exact Or.inl rfl
  · intro u hu
    exact absurd hu (List.not_mem_nil u)

/-- A URL accepted by the admission guard has the site hostname, no query string, and no `#` in its serialization (guards 1-3 of route.ts:214-220). -/
theorem shouldCrawlUrl_true_elim (u base : JSURL) (h : shouldCrawlUrl u base = true) :
    u.hostname = base.hostname ∧ u.search = "" ∧
      strIncludes (urlToString u) "#" = false := by
  unfold shouldCrawlUrl at h
  by_cases h1 : u.hostname ≠ base.hostname
  · simp [h1] at h
  · rw [if_neg h1] at h
    by_cases h2 : u.search ≠ ""
    · simp [h2] at h
    · rw [if_neg h2] at h
      by_cases h3 : strIncludes (urlToString u) "#" = true
      · simp [h3] at h
      · exact ⟨of_not_not h1, of_not_not h2, Bool.eq_false_iff.mpr (fun hx => h3 hx)⟩

/-- C5: in every crawl run the attempted-page list is duplicate-free, and the visited set and the attempted list contain exactly the same URLs in the same order — a URL is marked visited and recorded as attempted at most once (route.ts:275-277). -/
theorem crawl_visited_unique (world : JSURL → List JSURL) (base : JSURL)
    (maxPages fuel : Nat) :
    (crawlSite world base maxPages fuel).scanned.Nodup ∧
      (crawlSite world base maxPages fuel).visited =
        (crawlSite world base maxPages fuel).scanned := by
  have h := crawlGo_VisOK world base maxPages fuel
    { toVisit := [(base, 0)], visited := [], scanned := [] } ⟨rfl, List.nodup_nil⟩
  exact ⟨h.2, h.1⟩

/-- C9: every frontier entry other than the seed root and every attempted URL other than the root has the hostname of the site root and carries no query string and no fragment marker in its serialization — cross-host, query and fragment links are rejected by the admission guard. -/
theorem crawl_stays_on_site (world : JSURL → List JSURL) (base : JSURL)
    (maxPages fuel : Nat) :
    (∀ e ∈ (crawlSite world base maxPages fuel).toVisit,
      e.1 = base ∨ (e.1.hostname = base.hostname ∧ e.1.search = "" ∧
        strIncludes (urlToString e.1) "#" = false)) ∧
    (∀ u ∈ (crawlSite world base maxPages fuel).scanned,
      u = base ∨ (u.hostname = base.hostname ∧ u.search = "" ∧
        strIncludes (urlToString u) "#" = false)) := by
  have h := crawlSite_StOK world base maxPages fuel
  constructor
  · intro e he
    cases h.1 e he with
    | inl heq => exact Or.inl heq
    | inr hcr => exact Or.inr (shouldCrawlUrl_true_elim e.1 base hcr)
  · intro u hu
    cases h.2 u hu with
    | inl heq => exact Or.inl heq
    | inr hcr => exact Or.inr (shouldCrawlUrl_true_elim u base hcr)

/-- Witness for `crawl_stays_on_site` at the root of a link-free site. -/
theorem crawl_stays_on_site_witness :
    siteRoot = siteRoot ∨ (siteRoot.hostname = siteRoot.hostname ∧
      siteRoot.search = "" ∧ strIncludes (urlToString siteRoot) "#" = false) :=
  (crawl_stays_on_site world0 siteRoot 1 1).2 siteRoot (by decide)

/-- C6, counterexample: the link `https://site/a/b/c/d/e?x=1` scores -1, which is NOT low enough to be excluded — the score-based cutoff of route.ts:307 admits anything scoring at least -3; the link is excluded by the admission guard, not by its score. -/
theorem deep_query_score_passes_cutoff :
    scoreUrl deepQueryUrl = -1 ∧ (-3 : Int) ≤ -1 ∧
      shouldCrawlUrl deepQueryUrl siteRoot = false := by
  refine ⟨by decide, by decide, by decide⟩

/-- C6, amended: the link `https://site/a/b/c/d/e?x=1` is never admitted to the frontier and never fetched in any crawl of root `https://site`, but the exclusion comes from the admission guard (query string, five path segments), not from its score of -1, which passes the -3 cutoff. -/
theorem deep_query_link_never_admitted (world : JSURL → List JSURL)
    (maxPages fuel : Nat) :
    shouldCrawlUrl deepQueryUrl siteRoot = false ∧
    scoreUrl deepQueryUrl = -1 ∧ (-3 : Int) ≤ scoreUrl deepQueryUrl ∧
    (∀ sc : Int, (deepQueryUrl, sc) ∉ (crawlSite world siteRoot maxPages fuel).toVisit) ∧
    deepQueryUrl ∉ (crawlSite world siteRoot maxPages fuel).scanned := by
  have hst := crawlSite_StOK world siteRoot maxPages fuel
  refine ⟨by decide, by decide, by decide, ?_, ?_⟩
  · intro sc hmem
    cases hst.1 (deepQueryUrl, sc) hmem with
    | inl heq => exact absurd (show deepQueryUrl = siteRoot from heq) (by decide)
    | inr hcr =>
      exact absurd (show shouldCrawlUrl deepQueryUrl siteRoot = true from hcr) (by decide)
  · intro hmem
    cases hst.2 deepQueryUrl hmem with
    | inl heq => exact absurd heq (by decide)
    | inr hcr => exact absurd hcr (by decide)

/-- Witness for `deep_query_link_never_admitted` on the link-free world. -/
theorem deep_query_link_never_admitted_witness :
    ¬((deepQueryUrl, (0 : Int)) ∈ (crawlSite world0 siteRoot 1 1).toVisit) ∧
    ¬(deepQueryUrl ∈ (crawlSite world0 siteRoot 1 1).scanned) :=
  ⟨(deep_query_link_never_admitted world0 1 1).2.2.2.1 0,
    (deep_query_link_never_admitted world0 1 1).2.2.2.2⟩

/-- C1, counterexample: with a page cap of 2 and a frontier holding the ten accepted links of `world1`, the crawl fetches 6 pages, not 2, and leaves 5 entries in the frontier, not 8: the inner queueing loop (route.ts:262-325) fills the five-slot concurrency window without re-checking the page cap. -/
theorem budget_exhaustion_counterexample :
    (crawlGo world1 siteRoot 2 1
        { toVisit := [(siteRoot, 0)], visited := [], scanned := [] }).toVisit.length = 10 ∧
    run1.scanned.length = 6 ∧ ¬(run1.scanned.length = 2) ∧
    run1.toVisit.length = 5 ∧ ¬(run1.toVisit.length = 8) := by
  refine ⟨by decide, by decide, by decide, by decide, by decide⟩

/-- C1, amended: with a 2-page cap and a frontier of ten accepted links, the crawler fetches the seed plus one full five-page batch (6 fetches); the remaining five frontier entries are never fetched and are simply left in the frontier when the loop reaches its final state (a further loop step changes nothing). -/
theorem budget_exhaustion_batch_overshoot :
    run1.scanned =
      [siteRoot, sitePage 1, sitePage 2, sitePage 3, sitePage 4, sitePage 5] ∧
    run1.toVisit =
      [(sitePage 6, 0), (sitePage 7, 0), (sitePage 8, 0), (sitePage 9, 0),
        (sitePage 10, 0)] ∧
    (run1.toVisit.all (fun e => !(run1.scanned.contains e.1))) = true ∧
    crawlGo world1 siteRoot 2 1 run1 = run1 := by
  refine ⟨by decide, by decide, by decide, by decide⟩

/-- The aggregation fold adds to each counter the sum of the per-page contributions. -/
theorem aggFold_counters (l : List PageFacts) (st : AggState) :
    (l.foldl processPage st).totalImages =
      st.totalImages + (l.map (fun p => p.imgAlts.length)).sum ∧
    (l.foldl processPage st).missingAlt =
      st.missingAlt + (l.map (fun p => countMissingAlt p.imgAlts)).sum ∧
    (l.foldl processPage st).controlsTotal =
      st.controlsTotal + (l.map (fun p => (estimateUnlabeledControls p.ctx p.controls).1)).sum ∧
    (l.foldl processPage st).unlabeled =
      st.unlabeled + (l.map (fun p => (estimateUnlabeledControls p.ctx p.controls).2)).sum ∧
    (l.foldl processPage st).forms = st.forms + (l.map PageFacts.formsCount).sum := by
  induction l generalizing st with
  | nil => simp
  | cons p rest ih =>
    simp only [List.foldl_cons, List.map_cons, List.sum_cons]
    have h := ih (processPage st p)
    refine ⟨?_, ?_, ?_, ?_, ?_⟩
    · rw [h.1]; simp [processPage]; omega
    · rw [h.2.1]; simp [processPage]; omega
    · rw [h.2.2.1]; simp [processPage]; omega
    · rw [h.2.2.2.1]; simp [processPage]; omega
    · rw [h.2.2.2.2]; simp [processPage]; omega

/-- The unique-link set of the aggregation pass is the single insertion fold over the concatenation of all pages' links. -/
theorem aggFold_seen (l : List PageFacts) (st : AggState) :
    (l.foldl processPage st).seen =
      (l.flatMap PageFacts.links).foldl insertLink st.seen := by
  induction l generalizing st with
  | nil => rfl
  | cons p rest ih =>
    simp only [List.foldl_cons, List.flatMap_cons, List.foldl_append]
    rw [ih (processPage st p)]
    rfl

/-- Membership in the insertion-folded link set. -/
theorem insertFold_mem (xs : List JSURL) (s : List JSURL) (a : JSURL) :
    a ∈ xs.foldl insertLink s ↔ a ∈ s ∨ a ∈ xs := by
  induction xs generalizing s with
  | nil => simp
  | cons x rest ih =>
    simp only [List.foldl_cons]
    rw [ih]
    unfold insertLink
    by_cases hx : x ∈ s
    · rw [if_pos hx]
      constructor
      · rintro (h | h)
        · exact Or.inl h
        · exact Or.inr (List.mem_cons_of_mem x h)
      · rintro (h | h)
        · exact Or.inl h
        · rcases List.mem_cons.mp h with rfl | h2
          · exact Or.inl hx
          · exact Or.inr h2
    · rw [if_neg hx]
      simp only [List.mem_append, List.mem_singleton, List.mem_cons]
      tauto

/-- The insertion-folded link set is duplicate-free. -/
theorem insertFold_nodup (xs : List JSURL) (s : List JSURL) (h : s.Nodup) :
    (xs.foldl insertLink s).Nodup := by
  induction xs generalizing s with
  | nil => exact h
  | cons x rest ih =>
    simp only [List.foldl_cons]
    apply ih
    unfold insertLink
    by_cases hx : x ∈ s
    · rw [if_pos hx]
      exact h
    · rw [if_neg hx]
      simp [List.nodup_append, h, hx]

/-- With pairwise-distinct page URLs, the per-page metrics map lists exactly one entry per page, in page order, holding that page's missing-alt and unlabeled-control counts. -/
theorem aggFold_pageMetrics (l : List PageFacts) (st : AggState)
    (hfresh : ∀ p ∈ l, ∀ e ∈ st.pageMetrics, ¬e.1 = p.url)
    (hn : (l.map PageFacts.url).Nodup) :
    (l.foldl processPage st).pageMetrics = st.pageMetrics ++ l.map aggEntry := by
  induction l generalizing st with
  | nil => simp
  | cons p rest ih =>
    simp only [List.foldl_cons, List.map_cons]
    have hany : st.pageMetrics.any (fun e => e.1 = p.url) = false := by
      rw [List.any_eq_false]
      intro e he
      simp only [decide_eq_true_eq]
      exact hfresh p (List.mem_cons_self p rest) e he
    have hpm : (processPage st p).pageMetrics = st.pageMetrics ++ [aggEntry p] := by
      unfold processPage
      simp only [hany, Bool.false_eq_true, if_false, List.map_append]
      have hid : st.pageMetrics.map
          (fun e => if e.1 = p.url then
            (p.url, countMissingAlt p.imgAlts, (estimateUnlabeledControls p.ctx p.controls).2)
            else e) = st.pageMetrics := by
        conv_rhs => rw [← List.map_id st.pageMetrics]
        apply List.map_congr_left
        intro e he
        rw [if_neg (hfresh p (List.mem_cons_self p rest) e he)]
        rfl
      rw [hid]
      simp [aggEntry]
    rw [ih (processPage st p) ?_ (List.nodup_cons.mp hn).2]
    · rw [hpm, List.append_assoc]
      rfl
    · intro q hq e he
      rw [hpm] at he
      rcases List.mem_append.mp he with h1 | h2
      · exact hfresh q (List.mem_cons_of_mem p hq) e h1
      · rcases List.mem_singleton.mp h2 with rfl
        intro hbad
        apply (List.nodup_cons.mp hn).1
        have hpq : p.url = q.url := hbad
        rw [hpq]
        exact List.mem_map_of_mem PageFacts.url hq

/-- Stable insertion by missing-alt count produces a permutation. -/
theorem insertByAlt_perm (e : PageMetric) (l : List PageMetric) :
    List.Perm (insertByAlt e l) (e :: l) := by
  induction l with
  | nil => exact List.Perm.refl _
  | cons f rest ih =>
    unfold insertByAlt
    by_cases h : f.missingAltCount ≤ e.missingAltCount
    · rw [if_pos h]
    · rw [if_neg h]
      exact (ih.cons f).trans (List.Perm.swap e f rest)

/-- The worst-by-alt sort is a permutation of its input. -/
theorem sortByAlt_perm (l : List PageMetric) : List.Perm (sortByAlt l) l := by
  induction l with
  | nil => exact List.Perm.refl _
  | cons e rest ih =>
    exact (insertByAlt_perm e (sortByAlt rest)).trans (ih.cons e)

/-- Stable insertion by unlabeled-control count produces a permutation. -/
theorem insertByControls_perm (e : PageMetric) (l : List PageMetric) :
    List.Perm (insertByControls e l) (e :: l) := by
  induction l with
  | nil => exact List.Perm.refl _
  | cons f rest ih =>
    unfold insertByControls
    by_cases h : f.unlabeledControlsCount ≤ e.unlabeledControlsCount
    · rw [if_pos h]
    · rw [if_neg h]
      exact (ih.cons f).trans (List.Perm.swap e f rest)

/-- The worst-by-controls sort is a permutation of its input. -/
theorem sortByControls_perm (l : List PageMetric) : List.Perm (sortByControls l) l := by
  induction l with
  | nil => exact List.Perm.refl _
  | cons e rest ih =>
    exact (insertByControls_perm e (sortByControls rest)).trans (ih.cons e)

/-- The metrics map of a full aggregation over distinct page URLs. -/
theorem aggregate_pageMetrics (l : List PageFacts)
    (hn : (l.map PageFacts.url).Nodup) :
    (aggregate l).pageMetrics = l.map aggEntry := by
  have h := aggFold_pageMetrics l initAgg ?_ hn
  · simpa [initAgg] using h
  · intro p hp e he
    exact absurd he (List.not_mem_nil e)

/-- C7, amended: for pages with pairwise-distinct URLs, every permutation of the page list yields the same image/control/form totals, the same unique-link count and internal/external split, and worst-page rankings that are permutations of each other (identical up to the order of tied pages); the truncated top-5 lists may order tied pages differently, see the counterexample. -/
theorem aggregation_commutative (base : JSURL) (l1 l2 : List PageFacts)
    (hn : (l1.map PageFacts.url).Nodup) (hp : List.Perm l1 l2) :
    (aggregate l1).totalImages = (aggregate l2).totalImages ∧
    (aggregate l1).missingAlt = (aggregate l2).missingAlt ∧
    (aggregate l1).controlsTotal = (aggregate l2).controlsTotal ∧
    (aggregate l1).unlabeled = (aggregate l2).unlabeled ∧
    (aggregate l1).forms = (aggregate l2).forms ∧
    (aggregate l1).seen.length = (aggregate l2).seen.length ∧
    internalCount base (aggregate l1) = internalCount base (aggregate l2) ∧
    externalCount base (aggregate l1) = externalCount base (aggregate l2) ∧
    List.Perm (worstByAltRanking (aggregate l1)) (worstByAltRanking (aggregate l2)) ∧
    List.Perm (worstByControlsRanking (aggregate l1))
      (worstByControlsRanking (aggregate l2)) := by
  have h1 := aggFold_counters l1 initAgg
  have h2 := aggFold_counters l2 initAgg
  have hseen : ∀ l : List PageFacts,
      (aggregate l).seen = (l.flatMap PageFacts.links).foldl insertLink [] := by
    intro l
    have := aggFold_seen l initAgg
    simpa [initAgg] using this
  have hflat : List.Perm (l1.flatMap PageFacts.links) (l2.flatMap PageFacts.links) :=
    hp.flatMap_right PageFacts.links
  have hnd1 : (aggregate l1).seen.Nodup := by
    rw [hseen l1]; exact insertFold_nodup _ [] List.nodup_nil
  have hnd2 : (aggregate l2).seen.Nodup := by
    rw [hseen l2]; exact insertFold_nodup _ [] List.nodup_nil
  have hsperm : List.Perm (aggregate l1).seen (aggregate l2).seen := by
    rw [List.perm_ext_iff_of_nodup hnd1 hnd2]
    intro a
    rw [hseen l1, hseen l2, insertFold_mem, insertFold_mem]
    simp only [List.not_mem_nil, false_or]
    exact hflat.mem_iff
  have hn2 : (l2.map PageFacts.url).Nodup := ((hp.map PageFacts.url).nodup_iff).mp hn
  have hpm1 := aggregate_pageMetrics l1 hn
  have hpm2 := aggregate_pageMetrics l2 hn2
  have hpoolalt : List.Perm (worstByAltPool (aggregate l1)) (worstByAltPool (aggregate l2)) := by
    unfold worstByAltPool
    rw [hpm1, hpm2]
    exact (hp.map aggEntry).filterMap _
  have hpoolctl : List.Perm (worstByControlsPool (aggregate l1))
      (worstByControlsPool (aggregate l2)) := by
    unfold worstByControlsPool
    rw [hpm1, hpm2]
    exact (hp.map aggEntry).filterMap _
  refine ⟨?_, ?_, ?_, ?_, ?_, hsperm.length_eq, hsperm.countP_eq _, hsperm.countP_eq _,
    ?_, ?_⟩
  · unfold aggregate
    rw [h1.1, h2.1, ((hp.map (fun p => p.imgAlts.length)).sum_eq)]
  · unfold aggregate
    rw [h1.2.1, h2.2.1, ((hp.map (fun p => countMissingAlt p.imgAlts)).sum_eq)]
  · unfold aggregate
    rw [h1.2.2.1, h2.2.2.1,
      ((hp.map (fun p => (estimateUnlabeledControls p.ctx p.controls).1)).sum_eq)]
  · unfold aggregate
    rw [h1.2.2.2.1, h2.2.2.2.1,
      ((hp.map (fun p => (estimateUnlabeledControls p.ctx p.controls).2)).sum_eq)]
  · unfold aggregate
    rw [h1.2.2.2.2, h2.2.2.2.2, ((hp.map PageFacts.formsCount).sum_eq)]
  · exact ((sortByAlt_perm _).trans hpoolalt).trans (sortByAlt_perm _).symm
  · exact ((sortByControls_perm _).trans hpoolctl).trans (sortByControls_perm _).symm

/-- C7, counterexample: two pages that tie on one missing-alt defect each; swapping the page order swaps the tied entries of `worstPages.byMissingAlt`, so the full SiteMetrics (which includes the rankings) is NOT identical under permutation — the stable sort of route.ts:759 keeps ties in page order. -/
theorem worst_ranking_tie_order :
    List.Perm [pageA, pageB] [pageB, pageA] ∧
    worstByAltTop5 (aggregate [pageA, pageB]) ≠
      worstByAltTop5 (aggregate [pageB, pageA]) := by
  constructor
  · exact List.Perm.swap pageB pageA []
  · decide

/-- Witness for `aggregation_commutative` on the two-page swap. -/
theorem aggregation_commutative_witness :
    (aggregate [pageA, pageB]).totalImages = (aggregate [pageB, pageA]).totalImages ∧
    (aggregate [pageA, pageB]).missingAlt = (aggregate [pageB, pageA]).missingAlt ∧
    (aggregate [pageA, pageB]).controlsTotal = (aggregate [pageB, pageA]).controlsTotal ∧
    (aggregate [pageA, pageB]).unlabeled = (aggregate [pageB, pageA]).unlabeled ∧
    (aggregate [pageA, pageB]).forms = (aggregate [pageB, pageA]).forms ∧
    (aggregate [pageA, pageB]).seen.length = (aggregate [pageB, pageA]).seen.length ∧
    internalCount siteRoot (aggregate [pageA, pageB]) =
      internalCount siteRoot (aggregate [pageB, pageA]) ∧
    externalCount siteRoot (aggregate [pageA, pageB]) =
      externalCount siteRoot (aggregate [pageB, pageA]) ∧
    List.Perm (worstByAltRanking (aggregate [pageA, pageB]))
      (worstByAltRanking (aggregate [pageB, pageA])) ∧
    List.Perm (worstByControlsRanking (aggregate [pageA, pageB]))
      (worstByControlsRanking (aggregate [pageB, pageA])) :=
  aggregation_commutative siteRoot [pageA, pageB] [pageB, pageA] (by decide)
    (List.Perm.swap pageB pageA [])

/-- C10: every entry of `worstPages.byMissingAlt` has a positive missing-alt count and an unlabeled-control count pinned to 0, every entry of `worstPages.byUnlabeledControls` has a positive unlabeled-control count and a missing-alt count pinned to 0 (route.ts:750-757), and each truncated list has at most five entries (route.ts:1266-1267); zero-defect pages never appear. -/
theorem worst_pages_wellformed (pages : List PageFacts) :
    (∀ e ∈ worstByAltTop5 (aggregate pages),
      0 < e.missingAltCount ∧ e.unlabeledControlsCount = 0) ∧
    (∀ e ∈ worstByControlsTop5 (aggregate pages),
      0 < e.unlabeledControlsCount ∧ e.missingAltCount = 0) ∧
    (worstByAltTop5 (aggregate pages)).length ≤ 5 ∧
    (worstByControlsTop5 (aggregate pages)).length ≤ 5 := by
  refine ⟨?_, ?_, List.length_take_le 5 _, List.length_take_le 5 _⟩
  · intro e he
    have h1 : e ∈ worstByAltRanking (aggregate pages) := List.take_subset 5 _ he
    have h2 : e ∈ worstByAltPool (aggregate pages) :=
      ((sortByAlt_perm _).mem_iff).mp h1
    rcases List.mem_filterMap.mp h2 with ⟨a, ha, hfa⟩
    by_cases hpos : 0 < a.2.1
    · rw [if_pos hpos] at hfa
      cases hfa
      exact ⟨hpos, rfl⟩
    · rw [if_neg hpos] at hfa
      exact absurd hfa (by simp)
  · intro e he
    have h1 : e ∈ worstByControlsRanking (aggregate pages) := List.take_subset 5 _ he
    have h2 : e ∈ worstByControlsPool (aggregate pages) :=
      ((sortByControls_perm _).mem_iff).mp h1
    rcases List.mem_filterMap.mp h2 with ⟨a, ha, hfa⟩
    by_cases hpos : 0 < a.2.2
    · rw [if_pos hpos] at hfa
      cases hfa
      exact ⟨hpos, rfl⟩
    · rw [if_neg hpos] at hfa
      exact absurd hfa (by simp)

/-- Witness for `worst_pages_wellformed` on a one-defect page. -/
theorem worst_pages_wellformed_witness :
    0 < (PageMetric.mk "https://site/a" 1 0).missingAltCount ∧
      (PageMetric.mk "https://site/a" 1 0).unlabeledControlsCount = 0 :=
  (worst_pages_wellformed [pageA]).1 ⟨"https://site/a", 1, 0⟩ (by decide)

/-- C8: whenever the target string, after the https:// prefixing step, fails to parse or parses to a non-http(s) protocol, the handler answers 400 before any fetch: the fetched list is empty and neither the crawl nor the fallback oracle is consulted (route.ts:560-567). -/
theorem invalid_target_rejected (parse : String → Option ParsedTarget)
    (crawl : String → List String × List String) (fallbackOk : String → Bool)
    (raw : String)
    (h : parse (withProto raw) = none ∨
      ∃ u, parse (withProto raw) = some u ∧
        ¬u.protocol = "http:" ∧ ¬u.protocol = "https:") :
    postModel parse crawl fallbackOk (some raw) = { status := 400, fetched := [] } := by
  unfold postModel normalizeUrl
  cases h with
  | inl h0 => simp [h0]
  | inr h1 =>
    rcases h1 with ⟨u, hu, hp1, hp2⟩
    simp [hu, hp1, hp2]

/-- Witness for `invalid_target_rejected` with the all-rejecting parser. -/
theorem invalid_target_rejected_witness :
    postModel parse0 crawl0 (fun _ => true) (some "not a url") =
      { status := 400, fetched := [] } :=
  invalid_target_rejected parse0 crawl0 (fun _ => true) "not a url" (Or.inl rfl)
